import Mathlib

/-!
Verification development for the RTDS_Buffers repository.

Shallow embedding of the communication-and-control engine:
* `Comms/gtnet_channel.py` — `GtnetChannel` command state, dirty flag,
  transmit gating and disconnect handling;
* `Comms/comms_disruptions.py` — `ChannelDisruptor` telemetry and command
  fault injection;
* `DG_controller.py` — `RateLimiter`, `LowPass` and `DGController.update`;
* `run_islanding_dg_load_test.py` — the `_stable_window_ok` stability
  predicate.

Python numbers (ints and finite floats) are modelled as `ℚ`; a separate
constructor models non-finite float telemetry values where the code's
behaviour depends on them.  Stateful methods are modelled as explicit
state-passing functions.
-/

namespace RTDS

/-- Declared numeric kind of a command field (`cmd_types` entries,
`"int"` / `"float"` in `ChannelSpec`). -/
inductive Kind where
  | int
  | float
  deriving DecidableEq, Repr

/-- Python `int(v)` on a number: truncation toward zero. -/
def truncQ (q : ℚ) : ℤ := if 0 ≤ q then ⌊q⌋ else ⌈q⌉

/-- Coercion performed by `GtnetChannel.set_cmd`: `int(v)` for an `"int"`
field, `float(v)` for a `"float"` field (gtnet_channel.py lines 208-211). -/
def coerceK (k : Kind) (v : ℚ) : ℚ :=
  match k with
  | .int => (truncQ v : ℚ)
  | .float => v

/-- A telemetry value as decoded from the wire: a 32-bit integer field, a
finite float field, or a non-finite float (NaN/inf), on which Python's
`int(...)` raises. -/
inductive MValue where
  | iv (n : ℤ)
  | fv (q : ℚ)
  | nanv
  deriving DecidableEq, Repr

/-- Python `int(rts)` on a telemetry value, `none` when it raises
(non-finite float). -/
def MValue.toInt? : MValue → Option ℤ
  | .iv n => some n
  | .fv q => some (truncQ q)
  | .nanv => none

/-- The part of `ChannelSpec` (gtnet_channel.py lines 32-60) that the
command/transmit path reads: command field names and kinds, and the
optional ready-to-send gate. -/
structure ChannelSpec where
  name : String
  cmd_names : List String
  cmd_types : List Kind
  ready_to_send_name : Option String
  require_ready_to_send : Bool
  deriving DecidableEq, Repr

/-- First-match association-list lookup (Python dict read). -/
def lookupA : List (String × ℚ) → String → Option ℚ
  | [], _ => none
  | (k', v) :: rest, k => if k' = k then some v else lookupA rest k

/-- Replace the value of an existing key (Python dict assignment to a key
already present; `set_cmd` only writes keys it has looked up). -/
def setA : List (String × ℚ) → String → ℚ → List (String × ℚ)
  | [], _, _ => []
  | (k', v') :: rest, k, v =>
      if k' = k then (k', v) :: rest else (k', v') :: setA rest k v

/-- Telemetry-map lookup. -/
def lookupM : List (String × MValue) → String → Option MValue
  | [], _ => none
  | (k', v) :: rest, k => if k' = k then some v else lookupM rest k

/-- Mutable state of one `GtnetChannel` as far as the command/transmit
path is concerned: command state dict, dirty flag, latest telemetry
snapshot, connection flag. -/
structure Chan where
  spec : ChannelSpec
  cmd_state : List (String × ℚ)
  dirty : Bool
  latest_meas : List (String × MValue)
  connected : Bool
  deriving DecidableEq, Repr

/-- Model of `__init__` command state: each declared field starts at `0` / `0.0`
(gtnet_channel.py lines 141-143). -/
def initCmdState (spec : ChannelSpec) : List (String × ℚ) :=
  (spec.cmd_names.zip spec.cmd_types).map (fun p => (p.1, 0))

/-- Kind of the field named `k`: `cmd_types[list(cmd_names).index(k)]`
(gtnet_channel.py lines 205-206).  In the source `k` has been checked to
be a key of `_cmd_state`, whose keys are exactly `cmd_names` zipped with
`cmd_types`; the `getD` default is never reached on channels built by
`initCmdState` with equal-length name/type lists. -/
def typeOf (spec : ChannelSpec) (k : String) : Kind :=
  spec.cmd_types.getD (spec.cmd_names.indexOf k) .float

/-- The `for k, v in updates.items()` loop of `set_cmd`
(gtnet_channel.py lines 201-215).  Returns the command state after the
loop, the `changed` flag, and `true` iff the loop completed without
raising `KeyError`.  On an unknown name the loop raises at once, keeping
every mutation made so far. -/
def setCmdLoop (spec : ChannelSpec) :
    List (String × ℚ) → List (String × ℚ) → Bool →
    List (String × ℚ) × Bool × Bool
  | st, [], changed => (st, changed, true)
  | st, (k, v) :: rest, changed =>
      match lookupA st k with
      | none => (st, changed, false)
      | some cur =>
          let nv := coerceK (typeOf spec k) v
          if cur ≠ nv then setCmdLoop spec (setA st k nv) rest true
          else setCmdLoop spec st rest changed

/-- Model of `GtnetChannel.set_cmd` (gtnet_channel.py lines 198-218).  Returns the
channel after the call and `true` iff no `KeyError` was raised; the dirty
flag is raised only on a completed call with `changed` true (`if changed:
self._dirty = True` is skipped when the loop raises). -/
def set_cmd (c : Chan) (updates : List (String × ℚ)) : Chan × Bool :=
  let r := setCmdLoop c.spec c.cmd_state updates false
  if r.2.2 then ({ c with cmd_state := r.1, dirty := c.dirty || r.2.1 }, true)
  else ({ c with cmd_state := r.1 }, false)

/-- Model of `GtnetChannel._ok_to_send` (gtnet_channel.py lines 342-352).
`if not self.spec.ready_to_send_name or not self.spec.require_ready_to_send`
treats both `None` and the empty string as "no gate"; otherwise
`int(rts) == 1` under `try/except` (absent field or non-finite value
yields `False`, never an exception). -/
def ok_to_send (c : Chan) : Bool :=
  match c.spec.ready_to_send_name with
  | none => true
  | some g =>
      if g = "" ∨ c.spec.require_ready_to_send = false then true
      else
        match lookupM c.latest_meas g with
        | none => false
        | some v =>
            match v.toInt? with
            | some n => decide (n = 1)
            | none => false

/-- Model of `GtnetChannel._build_cmd_payload` (gtnet_channel.py lines 354-357):
the values packed into the frame, in declared `cmd_names` order.  The
byte encoding itself is abstracted to the ordered value list; on a
well-formed channel every name is present and the default is unreached. -/
def build_cmd_payload (c : Chan) : List ℚ :=
  c.spec.cmd_names.map (fun n => (lookupA c.cmd_state n).getD 0)

/-- One body iteration of `GtnetChannel._tx_loop` on a connected channel
(gtnet_channel.py lines 321-334), on the success path: sends iff
(dirty or keepalive due) and `_ok_to_send()`; a send clears the dirty
flag and yields the payload built from the command state at that tick. -/
def txTick (c : Chan) (keepalive_due : Bool) : Chan × Option (List ℚ) :=
  if (c.dirty || keepalive_due) && ok_to_send c then
    ({ c with dirty := false }, some (build_cmd_payload c))
  else (c, none)

/-- Model of `GtnetChannel._handle_disconnect` (gtnet_channel.py lines 359-366),
called from both the RX and TX error handlers: marks disconnected and
forces the dirty flag true. -/
def handle_disconnect (c : Chan) : Chan :=
  { c with connected := false, dirty := true }

/-! ### `Comms/comms_disruptions.py` — `ChannelDisruptor` -/

/-- Model of `DataDegradationConfig` (comms_disruptions.py lines 16-36). -/
structure DataDegradationConfig where
  enabled : Bool
  drop_prob : ℚ
  freeze : Bool
  fixed_delay_s : ℚ
  jitter_s : ℚ
  add_noise : Bool
  noise_std : ℚ
  keys : Option (List String)
  deriving DecidableEq, Repr

/-- Model of `AutonomyDegradationConfig` (comms_disruptions.py lines 39-50). -/
structure AutonomyDegradationConfig where
  enabled : Bool
  block_all : Bool
  drop_prob : ℚ
  fixed_delay_s : ℚ
  jitter_s : ℚ
  deriving DecidableEq, Repr

/-- A telemetry frame as passed through the disruptor. -/
abbrev Frame := List (String × MValue)

/-- What one `on_meas` / `emit_cmd` call hands to the sink: nothing,
an immediate delivery, or a delivery deferred by a worker thread. -/
inductive Delivery (α : Type) where
  | dropped
  | now (x : α)
  | delayed (x : α) (d : ℚ)
  deriving DecidableEq, Repr

/-- Additive Gaussian noise step of `on_meas` (comms_disruptions.py
lines 159-165): each numeric value of a selected key gets its own draw
from the rng, modelled by `gauss : String → ℚ`.  A non-finite float is
`isinstance(v, float)` in Python, so it is perturbed too and stays
non-finite. -/
def addNoise (keys : Option (List String)) (gauss : String → ℚ) :
    Frame → Frame
  | [] => []
  | (k, v) :: rest =>
      let hit :=
        match keys with
        | none => true
        | some ks => ks.contains k
      let v' :=
        if hit then
          match v with
          | .iv n => .fv ((n : ℚ) + gauss k)
          | .fv q => .fv (q + gauss k)
          | .nanv => .nanv
        else v
      (k, v') :: addNoise keys gauss rest

/-- Delay computation shared by both paths (comms_disruptions.py
lines 167-171 and 208-211): `fixed + uniform(-jitter, jitter)` floored
at zero when jitter is positive, else just the fixed delay.  `jit` is
the drawn `uniform(-jitter_s, jitter_s)` value. -/
def computeDelay (fixed jitter jit : ℚ) : ℚ :=
  if jitter > 0 then max 0 (fixed + jit) else fixed

/-- Model of `ChannelDisruptor.on_meas` for one channel (comms_disruptions.py
lines 127-181).  `last` is `_last_meas.get(channel_name)` before the
call; `r` is the `random()` draw consumed by the drop test, `gauss` the
per-key noise draws, `jit` the jitter draw.  Returns the stored
`_last_meas` entry after the call and the delivery made to `meas_sink`.
Note the source stores the incoming frame into `_last_meas` (line 132)
before the freeze branch reads it back (line 140). -/
def on_meas (cfg : DataDegradationConfig) (last : Option Frame)
    (meas : Frame) (r : ℚ) (gauss : String → ℚ) (jit : ℚ) :
    Option Frame × Delivery Frame :=
  let last' := some meas
  if cfg.enabled = false then (last', .now meas)
  else if cfg.freeze then
    match last' with
    | some frozen => (last', .now frozen)
    | none => (last', .dropped)
  else if cfg.drop_prob > 0 ∧ r < cfg.drop_prob then (last', .dropped)
  else
    let out :=
      if cfg.add_noise ∧ cfg.noise_std > 0 then addNoise cfg.keys gauss meas
      else meas
    let delay := computeDelay cfg.fixed_delay_s cfg.jitter_s jit
    if delay ≤ 0 then (last', .now out) else (last', .delayed out delay)

/-- Model of `ChannelDisruptor.emit_cmd` for one channel (comms_disruptions.py
lines 190-221): pass-through when disabled; else block-all, probabilistic
drop, then immediate or deferred delivery to `cmd_sink`. -/
def emit_cmd (cfg : AutonomyDegradationConfig)
    (updates : List (String × ℚ)) (r jit : ℚ) :
    Delivery (List (String × ℚ)) :=
  if cfg.enabled = false then .now updates
  else if cfg.block_all then .dropped
  else if cfg.drop_prob > 0 ∧ r < cfg.drop_prob then .dropped
  else
    let delay := computeDelay cfg.fixed_delay_s cfg.jitter_s jit
    if delay ≤ 0 then .now updates else .delayed updates delay

/-! ### `DG_controller.py` — filters, rate limiters, `DGController` -/

/-- Model of `clamp(x, lo, hi) = max(lo, min(hi, x))` (DG_controller.py line 34). -/
def clampQ (x lo hi : ℚ) : ℚ := max lo (min hi x)

/-- Model of `LowPass` first-order filter (DG_controller.py lines 40-55). -/
structure LowPass where
  tau : ℚ
  y : Option ℚ
  deriving DecidableEq, Repr

/-- Model of `LowPass.step`: seed on first sample; pass-through for `tau <= 0`;
else `y = (1-a) y + a x` with `a = dt / (tau + dt)`. -/
def LowPass.step (f : LowPass) (x dt : ℚ) : ℚ × LowPass :=
  match f.y with
  | none => (x, { f with y := some x })
  | some y =>
      if f.tau ≤ 0 then (x, { f with y := some x })
      else
        let a := dt / (f.tau + dt)
        let y' := (1 - a) * y + a * x
        (y', { f with y := some y' })

/-- Model of `RateLimiter` (DG_controller.py lines 57-76). -/
structure RateLimiter where
  up : ℚ
  down : ℚ
  y : Option ℚ
  deriving DecidableEq, Repr

/-- Model of `RateLimiter.step`: seed on first sample; else clip `x - y` to
`[-down*dt, up*dt]` and advance. -/
def RateLimiter.step (rl : RateLimiter) (x dt : ℚ) : ℚ × RateLimiter :=
  match rl.y with
  | none => (x, { rl with y := some x })
  | some y =>
      let dy := x - y
      let maxUp := rl.up * dt
      let maxDn := rl.down * dt
      let dy' := if dy > maxUp then maxUp else if dy < -maxDn then -maxDn else dy
      (y + dy', { rl with y := some (y + dy') })

/-- Model of `DGCommands` (DG_controller.py lines 108-114). -/
structure DGCommands where
  REM_BLOCKGEN : ℤ
  REM_Wref : ℚ
  REM_PREF : ℚ
  REM_RESETGEN : ℤ
  deriving DecidableEq, Repr

/-- The fields of `DGMeasurements` (DG_controller.py lines 83-105) read
by `DGController.update`; the remaining handshake/diagnostic fields are
never consulted by the controller. -/
structure DGMeasurements where
  SMACH : Option ℚ
  GENRMSPU : Option ℚ
  OVERLOADED : Option ℤ
  WPU : Option ℚ
  deriving DecidableEq, Repr

/-- Model of `DGControllerConfig` (DG_controller.py lines 121-176). -/
structure DGControllerConfig where
  Wref_base : ℚ
  Pref_base : ℚ
  Wref_min : ℚ
  Wref_max : ℚ
  Pref_min : ℚ
  Pref_max : ℚ
  WPU_target : ℚ
  WPU_deadband : ℚ
  SMACH_limit : ℚ
  SMACH_margin : ℚ
  Vmin_pu : ℚ
  Vsoft_pu : ℚ
  k_pref_wpu : ℚ
  k_wref_wpu : ℚ
  meas_lpf_tau : ℚ
  wref_rate_up : ℚ
  wref_rate_down : ℚ
  pref_rate_up : ℚ
  pref_rate_down : ℚ
  max_stale_s : ℚ
  overload_soft_drop : ℚ
  overload_hard_after_s : ℚ
  reset_pulse_s : ℚ

/-- The default values of `DGControllerConfig`. -/
def defaultConfig : DGControllerConfig where
  Wref_base := 1
  Pref_base := 0
  Wref_min := 98/100
  Wref_max := 102/100
  Pref_min := -1
  Pref_max := 1
  WPU_target := 1
  WPU_deadband := 15/10000
  SMACH_limit := 3/2
  SMACH_margin := 5/100
  Vmin_pu := 92/100
  Vsoft_pu := 96/100
  k_pref_wpu := 2
  k_wref_wpu := 1/5
  meas_lpf_tau := 15/100
  wref_rate_up := 1/100
  wref_rate_down := 2/100
  pref_rate_up := 1/5
  pref_rate_down := 3/10
  max_stale_s := 1/2
  overload_soft_drop := 3/10
  overload_hard_after_s := 1
  reset_pulse_s := 1/10

/-- Mutable state of a `DGController` (DG_controller.py lines 193-219). -/
structure DGState where
  f_wpu : LowPass
  f_smach : LowPass
  f_vpu : LowPass
  rl_wref : RateLimiter
  rl_pref : RateLimiter
  last_meas_ts : Option ℚ
  last_cmd : DGCommands
  overload_start_ts : Option ℚ
  reset_until_ts : ℚ
  enabled : Bool
  remote_block_override : Option ℤ

/-- Model of `DGController.__init__` state. -/
def initState (cfg : DGControllerConfig) : DGState where
  f_wpu := ⟨cfg.meas_lpf_tau, none⟩
  f_smach := ⟨cfg.meas_lpf_tau, none⟩
  f_vpu := ⟨cfg.meas_lpf_tau, none⟩
  rl_wref := ⟨cfg.wref_rate_up, cfg.wref_rate_down, some cfg.Wref_base⟩
  rl_pref := ⟨cfg.pref_rate_up, cfg.pref_rate_down, some cfg.Pref_base⟩
  last_meas_ts := none
  last_cmd := ⟨1, cfg.Wref_base, cfg.Pref_base, 0⟩
  overload_start_ts := none
  reset_until_ts := 0
  enabled := true
  remote_block_override := none

/-- Model of `DGController._pref_from_smach` (DG_controller.py lines 327-347). -/
def pref_from_smach (cfg : DGControllerConfig) (smach : ℚ) : ℚ :=
  let limit := cfg.SMACH_limit
  let soft := limit - cfg.SMACH_margin
  if smach ≥ limit then -(1/2) - 2 * (smach - limit)
  else if smach ≥ soft then
    -(1/5) * ((smach - soft) / max cfg.SMACH_margin (1/1000000))
  else 0

/-- Model of `DGController._pref_from_wpu` (DG_controller.py lines 349-356). -/
def pref_from_wpu (cfg : DGControllerConfig) (wpu : ℚ) : ℚ :=
  let e := cfg.WPU_target - wpu
  if |e| < cfg.WPU_deadband then 0 else cfg.k_pref_wpu * e

/-- Model of `DGController._wref_from_wpu` (DG_controller.py lines 358-366). -/
def wref_from_wpu (cfg : DGControllerConfig) (wpu : ℚ) : ℚ :=
  let e := cfg.WPU_target - wpu
  if |e| < cfg.WPU_deadband then 0 else cfg.k_wref_wpu * e

/-- Model of `DGController._apply_voltage_guard` (DG_controller.py lines 368-383). -/
def apply_voltage_guard (cfg : DGControllerConfig) (pref_cmd vpu : ℚ) : ℚ :=
  if vpu < cfg.Vmin_pu then min pref_cmd cfg.Pref_base
  else if vpu < cfg.Vsoft_pu ∧ pref_cmd > cfg.Pref_base then
    let extra := pref_cmd - cfg.Pref_base
    let scale := clampQ ((vpu - cfg.Vmin_pu) / (cfg.Vsoft_pu - cfg.Vmin_pu)) 0 1
    cfg.Pref_base + extra * scale
  else pref_cmd

/-- Model of `DGController._handle_overload_logic` (DG_controller.py lines
385-426).  Returns `(block_cmd, reset_cmd, pref_cmd, overload_start_ts,
reset_until_ts)`; a `request_reset(now)` in the hard branch extends
`reset_until_ts` to `max reset_until (now + reset_pulse_s)`. -/
def handle_overload_logic (cfg : DGControllerConfig)
    (overloaded : Option ℤ) (pref_cmd now : ℚ)
    (ostart : Option ℚ) (reset_until : ℚ) :
    ℤ × ℤ × ℚ × Option ℚ × ℚ :=
  let reset0 : ℤ := if now < reset_until then 1 else 0
  match overloaded with
  | none => (1, reset0, pref_cmd, ostart, reset_until)
  | some o =>
      if o ≠ 0 then
        let os := ostart.getD now
        let pref' := pref_cmd - |cfg.overload_soft_drop|
        if now - os ≥ cfg.overload_hard_after_s then
          let ru := max reset_until (now + cfg.reset_pulse_s)
          let reset' : ℤ := if now < ru then 1 else reset0
          (0, reset', pref', some os, ru)
        else (1, reset0, pref', some os, reset_until)
      else (1, reset0, pref_cmd, none, reset_until)

/-- Model of `DGController._is_stale` (DG_controller.py lines 315-318). -/
def is_stale (cfg : DGControllerConfig) (last_ts : Option ℚ) (now : ℚ) : Bool :=
  match last_ts with
  | none => false
  | some t => decide (now - t > cfg.max_stale_s)

/-- Model of `DGController._get_filtered` (DG_controller.py lines 320-325); in the
`ℚ` model every value is finite, so only missing values are skipped. -/
def get_filtered (f : LowPass) (x : Option ℚ) (dt : ℚ) : Option ℚ × LowPass :=
  match x with
  | none => (none, f)
  | some v => let r := f.step v dt
              (some r.1, r.2)

/-- Model of `DGController._hold_last` (DG_controller.py lines 428-436): realign
rate limiters to the last command and end an elapsed reset pulse
(the source reads the wall clock there; modelled by `now`). -/
def hold_last (st : DGState) (now : ℚ) : DGCommands × DGState :=
  let lc := st.last_cmd
  let lc' := if now ≥ st.reset_until_ts then { lc with REM_RESETGEN := 0 } else lc
  (lc', { st with
            rl_wref := { st.rl_wref with y := some lc.REM_Wref }
            rl_pref := { st.rl_pref with y := some lc.REM_PREF }
            last_cmd := lc' })

/-- Model of `DGController._hold_safe_base` (DG_controller.py lines 438-450). -/
def hold_safe_base (cfg : DGControllerConfig) (st : DGState) (dt now : ℚ) :
    DGCommands × DGState :=
  let w := st.rl_wref.step cfg.Wref_base dt
  let p := st.rl_pref.step cfg.Pref_base dt
  let reset : ℤ := if now < st.reset_until_ts then 1 else 0
  let out : DGCommands := ⟨1, w.1, p.1, reset⟩
  (out, { st with rl_wref := w.2, rl_pref := p.2, last_cmd := out })

/-- Model of `DGController.update` (DG_controller.py lines 223-301), with the
wall clock passed explicitly as `now`. -/
def update (cfg : DGControllerConfig) (st : DGState)
    (meas : DGMeasurements) (dt now : ℚ) : DGCommands × DGState :=
  if st.enabled = false then hold_safe_base cfg st dt now
  else
    let meas_ok := meas.SMACH.isSome || meas.WPU.isSome || meas.OVERLOADED.isSome
    let st1 := if meas_ok then { st with last_meas_ts := some now } else st
    if is_stale cfg st1.last_meas_ts now then hold_last st1 now
    else
      let rw := get_filtered st1.f_wpu meas.WPU dt
      let rs := get_filtered st1.f_smach meas.SMACH dt
      let rv := get_filtered st1.f_vpu meas.GENRMSPU dt
      let pref1 :=
        match rs.1 with
        | some s => cfg.Pref_base + pref_from_smach cfg s
        | none => cfg.Pref_base
      let pw :=
        match rw.1 with
        | some w => (pref1 + pref_from_wpu cfg w, cfg.Wref_base + wref_from_wpu cfg w)
        | none => (pref1, cfg.Wref_base)
      let pref3 :=
        match rv.1 with
        | some v => apply_voltage_guard cfg pw.1 v
        | none => pw.1
      let ov := handle_overload_logic cfg meas.OVERLOADED pref3 now
                  st1.overload_start_ts st1.reset_until_ts
      let block : ℤ :=
        match st1.remote_block_override with
        | some b => b
        | none => ov.1
      let wref_c := clampQ pw.2 cfg.Wref_min cfg.Wref_max
      let pref_c := clampQ ov.2.2.1 cfg.Pref_min cfg.Pref_max
      let wro := st1.rl_wref.step wref_c dt
      let pro := st1.rl_pref.step pref_c dt
      let out : DGCommands := ⟨block, wro.1, pro.1, ov.2.1⟩
      (out, { st1 with
                f_wpu := rw.2, f_smach := rs.2, f_vpu := rv.2,
                rl_wref := wro.2, rl_pref := pro.2,
                overload_start_ts := ov.2.2.2.1,
                reset_until_ts := ov.2.2.2.2,
                last_cmd := out })

/-! ### `run_islanding_dg_load_test.py` — the stability predicate -/

/-- A snapshot value as collected by `wait_until_stable`: a Python `int`
or a Python `float` (`isinstance(vals[0], int)` distinguishes them in
`_stable_window_ok`). -/
inductive SVal where
  | si (n : ℤ)
  | sf (q : ℚ)
  deriving DecidableEq, Repr

/-- Numeric value of a snapshot entry. -/
def SVal.toQ : SVal → ℚ
  | .si n => (n : ℚ)
  | .sf q => q

/-- Whether the first collected value is a Python `int`. -/
def SVal.isInt : SVal → Bool
  | .si _ => true
  | .sf _ => false

/-- One sample dict; an absent key and a key stored as `None` both read
back as "missing" (`s.get(name) is not None`). -/
abbrev Sample := List (String × SVal)

/-- Model of `s.get(name)`, `None` for a missing key. -/
def sget : Sample → String → Option SVal
  | [], _ => none
  | (k, v) :: rest, n => if k = n then some v else sget rest n

/-- Model of `[s[name] for s in samples if s.get(name) is not None]`. -/
def presentVals (samples : List Sample) (name : String) : List SVal :=
  samples.filterMap (fun s => sget s name)

/-- Per-signal limit entry of the `limits` dict: the `"required"`,
`"span"` and `"step"` keys (absent keys modelled as `none`/`false`). -/
structure LimitCfg where
  required : Bool
  span : Option ℚ
  step : Option ℚ
  deriving DecidableEq, Repr

/-- The `limits` dict (iterated in insertion order). -/
abbrev Limits := List (String × LimitCfg)

/-- Python `max` over a nonempty list (`0` on the empty list, which the
source never evaluates thanks to the `if ov` guards). -/
def qmax : List ℚ → ℚ
  | [] => 0
  | a :: rest => rest.foldl max a

/-- Python `min` over a nonempty list. -/
def qmin : List ℚ → ℚ
  | [] => 0
  | a :: rest => rest.foldl min a

/-- Model of `_max_step` (run_islanding_dg_load_test.py lines 136-144): the
largest absolute sample-to-sample difference, `0` for fewer than two
values. -/
def max_step : List ℚ → ℚ
  | [] => 0
  | [_] => 0
  | a :: b :: rest => max |b - a| (max_step (b :: rest))

/-- The required-signals presence loop of `_stable_window_ok`
(run_islanding_dg_load_test.py lines 151-154): every `required` entry
must have at least `max(5, len(samples)//2)` non-missing samples. -/
def requiredOk (samples : List Sample) : Limits → Bool
  | [] => true
  | (name, cfg) :: rest =>
      if cfg.required ∧
          (presentVals samples name).length < max 5 (samples.length / 2) then
        false
      else requiredOk samples rest

/-- The protection-flag test of `_stable_window_ok`
(run_islanding_dg_load_test.py lines 157-162): collect the non-missing
values of `name` and reject when the list is nonempty with `max != 0`. -/
def flagBad (samples : List Sample) (name : String) : Bool :=
  let ov := (presentVals samples name).map SVal.toQ
  if ov.isEmpty then false else decide (qmax ov ≠ 0)

/-- The per-signal span/step loop body of `_stable_window_ok`
(run_islanding_dg_load_test.py lines 165-182): empty value lists are
skipped; integer signals only get the step check; float signals get the
span and step checks. -/
def signalOk (samples : List Sample) (name : String) (cfg : LimitCfg) : Bool :=
  let vals := presentVals samples name
  if vals.isEmpty then true
  else if (vals.headD (SVal.si 0)).isInt then
    match cfg.step with
    | some b => decide (¬ max_step (vals.map SVal.toQ) > b)
    | none => true
  else
    let qs := vals.map SVal.toQ
    let spanOk :=
      match cfg.span with
      | some b => decide (¬ qmax qs - qmin qs > b)
      | none => true
    let stepOk :=
      match cfg.step with
      | some b => decide (¬ max_step qs > b)
      | none => true
    spanOk && stepOk

/-- Conjunction of `signalOk` over the `limits` dict. -/
def signalsOk (samples : List Sample) : Limits → Bool
  | [] => true
  | (name, cfg) :: rest => signalOk samples name cfg && signalsOk samples rest

/-- Model of `_stable_window_ok` (run_islanding_dg_load_test.py lines 146-184):
fewer than 10 samples is unstable; then required-signal presence, the
`OVERLOADED` and `W_DETECTED` flag tests, and the per-signal span/step
bounds. -/
def stable_window_ok (samples : List Sample) (limits : Limits) : Bool :=
  if samples.length < 10 then false
  else if requiredOk samples limits = false then false
  else if flagBad samples "OVERLOADED" then false
  else if flagBad samples "W_DETECTED" then false
  else signalsOk samples limits

/-! ### Helper lemmas -/

theorem clampQ_lt (x lo hi b : ℚ) (hx : x < b) (hlo : lo < b) :
    clampQ x lo hi < b := by
  unfold clampQ
  have : min hi x < b := lt_of_le_of_lt (min_le_right _ _) hx
  exact max_lt hlo this

theorem vguard_le (cfg : DGControllerConfig) (p v : ℚ) :
    apply_voltage_guard cfg p v ≤ p := by
  unfold apply_voltage_guard
  split_ifs with h1 h2
  · exact min_le_left _ _
  · dsimp only
    have hextra : (0:ℚ) ≤ p - cfg.Pref_base := by linarith [h2.2]
    have hs1 : clampQ ((v - cfg.Vmin_pu) / (cfg.Vsoft_pu - cfg.Vmin_pu)) 0 1 ≤ 1 :=
      max_le (by norm_num) (min_le_left _ _)
    nlinarith [mul_le_mul_of_nonneg_left hs1 hextra]
  · exact le_refl p

theorem vguard_vmin (cfg : DGControllerConfig) (p v : ℚ)
    (h : v < cfg.Vmin_pu) : apply_voltage_guard cfg p v ≤ cfg.Pref_base := by
  unfold apply_voltage_guard
  rw [if_pos h]
  exact min_le_right _ _

theorem overload_pref_le (cfg : DGControllerConfig) (o : Option ℤ)
    (p now : ℚ) (os : Option ℚ) (ru : ℚ) :
    (handle_overload_logic cfg o p now os ru).2.2.1 ≤ p := by
  have habs := abs_nonneg cfg.overload_soft_drop
  rcases o with _ | n
  · simp [handle_overload_logic]
  · simp only [handle_overload_logic]
    split_ifs <;> simp only [] <;> linarith

theorem pref_from_smach_le (cfg : DGControllerConfig) (s : ℚ)
    (h : cfg.SMACH_limit ≤ s) : pref_from_smach cfg s ≤ -(1/2) := by
  simp only [pref_from_smach]
  split_ifs with h1 <;> linarith

theorem rl_step_lt (rl : RateLimiter) (t dt y0 b : ℚ)
    (hy : rl.y = some y0) (hy0 : y0 ≤ b) (ht : t < b)
    (hdt : 0 < dt) (hdn : 0 < rl.down) : (rl.step t dt).1 < b := by
  have hdndt : 0 < rl.down * dt := mul_pos hdn hdt
  simp only [RateLimiter.step, hy]
  split_ifs with h1 h2 <;> linarith

theorem lookupA_eq_none_iff (st : List (String × ℚ)) (k : String) :
    lookupA st k = none ↔ k ∉ st.map Prod.fst := by
  induction st with
  | nil => simp [lookupA]
  | cons p rest ih =>
      obtain ⟨k', v⟩ := p
      by_cases h : k' = k
      · simp [lookupA, h]
      · simp only [lookupA, if_neg h, List.map_cons, List.mem_cons, ih]
        constructor
        · intro hn h2
          rcases h2 with rfl | hm
          · exact h rfl
          · exact hn hm
        · exact fun hn hm => hn (Or.inr hm)

theorem keys_setA (st : List (String × ℚ)) (k : String) (v : ℚ) :
    (setA st k v).map Prod.fst = st.map Prod.fst := by
  induction st with
  | nil => rfl
  | cons p rest ih =>
      obtain ⟨k', v'⟩ := p
      by_cases h : k' = k <;> simp [setA, h, ih]

theorem lookupA_setA_ne (st : List (String × ℚ)) (k k' : String) (v : ℚ)
    (h : k' ≠ k) : lookupA (setA st k v) k' = lookupA st k' := by
  induction st with
  | nil => rfl
  | cons p rest ih =>
      obtain ⟨k0, v0⟩ := p
      simp only [setA]
      by_cases h0 : k0 = k
      · subst h0
        have hne : ¬ k0 = k' := fun hh => h hh.symm
        simp [lookupA, hne]
      · simp only [if_neg h0, lookupA]
        by_cases h1 : k0 = k' <;> simp [h1, ih]

theorem lookupA_setA_self (st : List (String × ℚ)) (k : String) (v : ℚ)
    (h : lookupA st k ≠ none) : lookupA (setA st k v) k = some v := by
  induction st with
  | nil => simp [lookupA] at h
  | cons p rest ih =>
      obtain ⟨k0, v0⟩ := p
      by_cases h0 : k0 = k
      · simp [setA, lookupA, h0]
      · simp only [lookupA, if_neg h0] at h
        simp [setA, lookupA, h0, ih h]

theorem setCmdLoop_keys (spec : ChannelSpec) (st u : List (String × ℚ))
    (ch : Bool) :
    (setCmdLoop spec st u ch).1.map Prod.fst = st.map Prod.fst := by
  induction u generalizing st ch with
  | nil => rfl
  | cons p rest ih =>
      obtain ⟨k, v⟩ := p
      simp only [setCmdLoop]
      rcases hl : lookupA st k with _ | cur
      · rfl
      · dsimp only
        split_ifs
        · rw [ih, keys_setA]
        · exact ih st ch

theorem setCmdLoop_unknown (spec : ChannelSpec) (st u : List (String × ℚ))
    (ch : Bool) (k : String) (hk : k ∈ u.map Prod.fst)
    (hst : k ∉ st.map Prod.fst) :
    (setCmdLoop spec st u ch).2.2 = false := by
  induction u generalizing st ch with
  | nil => simp at hk
  | cons p rest ih =>
      obtain ⟨k0, v0⟩ := p
      simp only [setCmdLoop]
      rcases hl : lookupA st k0 with _ | cur
      · rfl
      · have hk0 : k ≠ k0 := by
          rintro rfl
          rw [(lookupA_eq_none_iff st k).2 hst] at hl
          cases hl
        have hkr : k ∈ rest.map Prod.fst := by
          rcases (by simpa using hk) with h | h
          · exact absurd h hk0
          · simpa using h
        dsimp only
        split_ifs
        · exact ih (setA st k0 _) true hkr (by rw [keys_setA]; exact hst)
        · exact ih st ch hkr hst

theorem setCmdLoop_lookup_notmem (spec : ChannelSpec)
    (st u : List (String × ℚ)) (ch : Bool) (k : String)
    (hk : k ∉ u.map Prod.fst) :
    lookupA (setCmdLoop spec st u ch).1 k = lookupA st k := by
  induction u generalizing st ch with
  | nil => rfl
  | cons p rest ih =>
      obtain ⟨k0, v0⟩ := p
      have hk0 : k ≠ k0 := by intro h; exact hk (by simp [h])
      have hkr : k ∉ rest.map Prod.fst := by intro h; exact hk (by simp [h])
      simp only [setCmdLoop]
      rcases hl : lookupA st k0 with _ | cur
      · rfl
      · dsimp only
        split_ifs
        · rw [ih _ _ hkr, lookupA_setA_ne _ _ _ _ hk0]
        · exact ih st ch hkr

theorem setCmdLoop_final_values (spec : ChannelSpec)
    (st u : List (String × ℚ)) (ch : Bool)
    (hnd : (u.map Prod.fst).Nodup)
    (hok : (setCmdLoop spec st u ch).2.2 = true) :
    ∀ p ∈ u, lookupA (setCmdLoop spec st u ch).1 p.1
      = some (coerceK (typeOf spec p.1) p.2) := by
  induction u generalizing st ch with
  | nil => intro p hp; cases hp
  | cons q rest ih =>
      obtain ⟨k0, v0⟩ := q
      rw [List.map_cons, List.nodup_cons] at hnd
      obtain ⟨hk0r, hndr⟩ := hnd
      simp only [setCmdLoop]
      rcases hl : lookupA st k0 with _ | cur
      · simp only [setCmdLoop, hl] at hok
        cases hok
      · simp only [setCmdLoop, hl] at hok
        dsimp only at hok ⊢
        intro p hp
        rcases List.mem_cons.1 hp with hph | hpt
        · subst hph
          dsimp only
          split_ifs with hne
          · rw [setCmdLoop_lookup_notmem spec _ rest true k0 hk0r,
              lookupA_setA_self st k0 _ (by rw [hl]; exact fun h => by cases h)]
          · rw [setCmdLoop_lookup_notmem spec st rest ch k0 hk0r, hl,
              not_not.1 hne]
        · split_ifs with hne
          · rw [if_pos hne] at hok
            exact ih (setA st k0 _) true hndr hok p hpt
          · rw [if_neg hne] at hok
            exact ih st ch hndr hok p hpt

theorem setCmdLoop_noop (spec : ChannelSpec) (st u : List (String × ℚ))
    (ch : Bool)
    (h : ∀ p ∈ u, lookupA st p.1 = some (coerceK (typeOf spec p.1) p.2)) :
    setCmdLoop spec st u ch = (st, ch, true) := by
  induction u with
  | nil => rfl
  | cons q rest ih =>
      obtain ⟨k0, v0⟩ := q
      have h0 := h (k0, v0) (List.mem_cons_self _ _)
      simp only [setCmdLoop, h0]
      rw [if_neg (by simp)]
      exact ih (fun p hp => h p (List.mem_cons_of_mem _ hp))

theorem setCmdLoop_changed_state_ne (spec : ChannelSpec)
    (st u : List (String × ℚ)) (hnd : (u.map Prod.fst).Nodup)
    (hch : (setCmdLoop spec st u false).2.1 = true) :
    (setCmdLoop spec st u false).1 ≠ st := by
  induction u generalizing st with
  | nil => cases hch
  | cons q rest ih =>
      obtain ⟨k0, v0⟩ := q
      rw [List.map_cons, List.nodup_cons] at hnd
      obtain ⟨hk0r, hndr⟩ := hnd
      simp only [setCmdLoop] at hch ⊢
      rcases hl : lookupA st k0 with _ | cur
      · rw [hl] at hch
        cases hch
      · rw [hl] at hch
        dsimp only at hch ⊢
        split_ifs with hne
        · intro heq
          have hlk : lookupA (setCmdLoop spec (setA st k0
              (coerceK (typeOf spec k0) v0)) rest true).1 k0
              = some (coerceK (typeOf spec k0) v0) := by
            rw [setCmdLoop_lookup_notmem spec _ rest true k0 hk0r,
              lookupA_setA_self st k0 _ (by rw [hl]; exact fun h => by cases h)]
          rw [heq, hl] at hlk
          exact hne (Option.some.injEq _ _ ▸ hlk)
        · rw [if_neg hne] at hch
          exact ih st hndr hch

theorem foldl_max_init (l : List ℚ) (a : ℚ) : a ≤ l.foldl max a := by
  induction l generalizing a with
  | nil => exact le_refl a
  | cons b rest ih => exact le_trans (le_max_left a b) (ih (max a b))

theorem foldl_max_mem (l : List ℚ) (a x : ℚ) (hx : x ∈ l) :
    x ≤ l.foldl max a := by
  induction l generalizing a with
  | nil => cases hx
  | cons b rest ih =>
      rcases List.mem_cons.1 hx with rfl | hm
      · exact le_trans (le_max_right a x) (foldl_max_init rest (max a x))
      · exact ih (max a b) hm

theorem le_qmax (l : List ℚ) (x : ℚ) (hx : x ∈ l) : x ≤ qmax l := by
  cases l with
  | nil => cases hx
  | cons a rest =>
      rcases List.mem_cons.1 hx with rfl | hm
      · exact foldl_max_init rest x
      · exact foldl_max_mem rest a x hm

theorem foldl_max_const (n : ℕ) (q : ℚ) :
    (List.replicate n q).foldl max q = q := by
  induction n with
  | zero => rfl
  | succ m ih => simpa [List.replicate_succ, max_self] using ih

theorem qmax_replicate_succ (n : ℕ) (q : ℚ) :
    qmax (List.replicate (n + 1) q) = q := by
  simp only [List.replicate_succ, qmax]
  exact foldl_max_const n q

theorem foldl_min_const (n : ℕ) (q : ℚ) :
    (List.replicate n q).foldl min q = q := by
  induction n with
  | zero => rfl
  | succ m ih => simpa [List.replicate_succ, min_self] using ih

theorem qmin_replicate_succ (n : ℕ) (q : ℚ) :
    qmin (List.replicate (n + 1) q) = q := by
  simp only [List.replicate_succ, qmin]
  exact foldl_min_const n q

theorem max_step_replicate (n : ℕ) (q : ℚ) :
    max_step (List.replicate n q) = 0 := by
  induction n with
  | zero => rfl
  | succ m ih =>
      cases m with
      | zero => rfl
      | succ k =>
          rw [List.replicate_succ, List.replicate_succ, max_step,
            ← List.replicate_succ, ih]
          simp

theorem presentVals_replicate (n : ℕ) (s : Sample) (name : String) :
    presentVals (List.replicate n s) name
      = match sget s name with
        | some v => List.replicate n v
        | none => [] := by
  induction n with
  | zero => rcases sget s name with _ | v <;> rfl
  | succ m ih =>
      rcases hv : sget s name with _ | v <;> rw [hv] at ih <;>
        simp [presentVals, List.replicate_succ, List.filterMap_cons, hv]

theorem requiredOk_replicate (n : ℕ) (s : Sample) (limits : Limits)
    (hn : 10 ≤ n)
    (hreq : ∀ p ∈ limits, p.2.required = true → sget s p.1 ≠ none) :
    requiredOk (List.replicate n s) limits = true := by
  induction limits with
  | nil => rfl
  | cons q rest ih =>
      obtain ⟨name, cfg⟩ := q
      simp only [requiredOk]
      rw [if_neg, ih (fun p hp => hreq p (List.mem_cons_of_mem _ hp))]
      rintro ⟨hc, hcount⟩
      rcases hv : sget s name with _ | v
      · exact hreq (name, cfg) (List.mem_cons_self _ _) hc hv
      · rw [presentVals_replicate, hv] at hcount
        simp only [List.length_replicate] at hcount
        have h1 : n / 2 ≤ n := Nat.div_le_self n 2
        omega

theorem flagBad_replicate_zero (n : ℕ) (s : Sample) (name : String)
    (h : ∀ v, sget s name = some v → v.toQ = 0) :
    flagBad (List.replicate n s) name = false := by
  unfold flagBad
  rcases hv : sget s name with _ | v
  · simp [presentVals_replicate, hv]
  · cases n with
    | zero => simp [presentVals]
    | succ m =>
        simp only [presentVals_replicate, hv, List.map_replicate, h v hv]
        rw [if_neg (by simp [List.replicate_succ])]
        simp [qmax_replicate_succ]

theorem signalOk_replicate (n : ℕ) (s : Sample) (name : String)
    (cfg : LimitCfg)
    (hspan : ∀ b, cfg.span = some b → 0 ≤ b)
    (hstep : ∀ b, cfg.step = some b → 0 ≤ b) :
    signalOk (List.replicate n s) name cfg = true := by
  unfold signalOk
  rcases hv : sget s name with _ | v
  · simp [presentVals_replicate, hv]
  · cases n with
    | zero => simp [presentVals]
    | succ m =>
        simp only [presentVals_replicate, hv]
        rw [if_neg (by simp [List.replicate_succ])]
        have hms : max_step ((List.replicate (m + 1) v).map SVal.toQ) = 0 := by
          rw [List.map_replicate, max_step_replicate]
        have hsp : qmax ((List.replicate (m + 1) v).map SVal.toQ)
            - qmin ((List.replicate (m + 1) v).map SVal.toQ) = 0 := by
          rw [List.map_replicate, qmax_replicate_succ, qmin_replicate_succ]
          ring
        split_ifs with hint
        · rcases hs : cfg.step with _ | b
          · rfl
          · have hb := hstep b hs
            rw [hms, decide_eq_true_eq]
            linarith
        · rcases hs2 : cfg.span with _ | b <;> rcases hs3 : cfg.step with _ | b2 <;>
            simp only [hms, hsp, Bool.and_eq_true, decide_eq_true_eq]
          · exact ⟨trivial, trivial⟩
          · have hb2 := hstep b2 hs3
            exact ⟨trivial, by linarith⟩
          · have hb := hspan b hs2
            exact ⟨by linarith, trivial⟩
          · have hb := hspan b hs2
            have hb2 := hstep b2 hs3
            exact ⟨by linarith, by linarith⟩

theorem signalsOk_replicate (n : ℕ) (s : Sample) (limits : Limits)
    (hspan : ∀ p ∈ limits, ∀ b, p.2.span = some b → 0 ≤ b)
    (hstep : ∀ p ∈ limits, ∀ b, p.2.step = some b → 0 ≤ b) :
    signalsOk (List.replicate n s) limits = true := by
  induction limits with
  | nil => rfl
  | cons q rest ih =>
      obtain ⟨name, cfg⟩ := q
      simp only [signalsOk, Bool.and_eq_true]
      exact ⟨signalOk_replicate n s name cfg
          (fun b hb => hspan (name, cfg) (List.mem_cons_self _ _) b hb)
          (fun b hb => hstep (name, cfg) (List.mem_cons_self _ _) b hb),
        ih (fun p hp => hspan p (List.mem_cons_of_mem _ hp))
          (fun p hp => hstep p (List.mem_cons_of_mem _ hp))⟩

/-- C5: for every `RateLimiter` with non-negative up and down rates and
initialized state `y0`, one `step` with input `x` and duration `dt ≥ 0`
yields an output within `[y0 - down*dt, y0 + up*dt]`
(`RateLimiter.step`, DG_controller.py lines 57-76). -/
theorem rate_limiter_step_bounded (rl : RateLimiter) (x dt y0 : ℚ)
    (hy : rl.y = some y0) (hup : 0 ≤ rl.up) (hdn : 0 ≤ rl.down)
    (hdt : 0 ≤ dt) :
    y0 - rl.down * dt ≤ (rl.step x dt).1 ∧
      (rl.step x dt).1 ≤ y0 + rl.up * dt := by
  have h1 : 0 ≤ rl.up * dt := mul_nonneg hup hdt
  have h2 : 0 ≤ rl.down * dt := mul_nonneg hdn hdt
  simp only [RateLimiter.step, hy]
  constructor <;> split_ifs <;> linarith

/-- Witness for C5 at a concrete limiter: `up = 5`, `down = 3`,
`y0 = 7`, target `100`, `dt = 2`. -/
theorem rate_limiter_step_bounded_witness :
    (7:ℚ) - 3 * 2 ≤ ((RateLimiter.mk 5 3 (some 7)).step 100 2).1 ∧
      ((RateLimiter.mk 5 3 (some 7)).step 100 2).1 ≤ 7 + 5 * 2 :=
  rate_limiter_step_bounded ⟨5, 3, some 7⟩ 100 2 7 rfl (by norm_num)
    (by norm_num) (by norm_num)

/-- C7: the voltage guardrail `_apply_voltage_guard` never increases the
power setpoint, and below the hard threshold `Vmin_pu` it additionally
caps the result at `Pref_base` (DG_controller.py lines 368-383). -/
theorem voltage_guard_never_increases (cfg : DGControllerConfig)
    (pref_cmd vpu : ℚ) :
    apply_voltage_guard cfg pref_cmd vpu ≤ pref_cmd ∧
      (vpu < cfg.Vmin_pu →
        apply_voltage_guard cfg pref_cmd vpu ≤ cfg.Pref_base) :=
  ⟨vguard_le cfg pref_cmd vpu, fun h => vguard_vmin cfg pref_cmd vpu h⟩

/-- Witness for C7 at the default configuration, `pref_cmd = 1`,
`vpu = 9/10 < Vmin_pu = 92/100`. -/
theorem voltage_guard_never_increases_witness :
    apply_voltage_guard defaultConfig 1 (9/10) ≤ 1 ∧
      ((9:ℚ)/10 < defaultConfig.Vmin_pu ∧
        apply_voltage_guard defaultConfig 1 (9/10) ≤ defaultConfig.Pref_base) :=
  ⟨(voltage_guard_never_increases defaultConfig 1 (9/10)).1,
    by norm_num [defaultConfig],
    (voltage_guard_never_increases defaultConfig 1 (9/10)).2
      (by norm_num [defaultConfig])⟩

/-- C9: with command-path degradation enabled and `block_all` true,
`emit_cmd` never hands the updates to the command sink; with telemetry
degradation enabled, `freeze` off and `drop_prob = 1.0`, `on_meas` never
delivers a frame (every `random()` draw is `< 1`)
(comms_disruptions.py lines 127-181 and 190-221). -/
theorem disruptor_blocks_and_drops
    (acfg : AutonomyDegradationConfig) (dcfg : DataDegradationConfig)
    (u : List (String × ℚ)) (last : Option Frame) (meas : Frame)
    (r r' jit jit' : ℚ) (g : String → ℚ)
    (ha1 : acfg.enabled = true) (ha2 : acfg.block_all = true)
    (hd1 : dcfg.enabled = true) (hd2 : dcfg.freeze = false)
    (hd3 : dcfg.drop_prob = 1) (hr : r' < 1) :
    emit_cmd acfg u r jit = Delivery.dropped ∧
      (on_meas dcfg last meas r' g jit').2 = Delivery.dropped := by
  constructor
  · simp [emit_cmd, ha1, ha2]
  · simp only [on_meas, hd1, hd2, hd3]
    norm_num
    rw [if_pos hr]

/-- Witness for C9: a fully blocking command config and a
`drop_prob = 1` telemetry config on concrete frames, with draw `1/2`. -/
theorem disruptor_blocks_and_drops_witness :
    emit_cmd ⟨true, true, 0, 0, 0⟩ [("REM_GRID", 1)] (1/2) 0
        = Delivery.dropped ∧
      (on_meas ⟨true, 1, false, 0, 0, false, 0, none⟩ none
          [("PGRID", MValue.fv 1)] (1/2) (fun _ => 0) 0).2
        = Delivery.dropped :=
  disruptor_blocks_and_drops ⟨true, true, 0, 0, 0⟩
    ⟨true, 1, false, 0, 0, false, 0, none⟩ [("REM_GRID", 1)] none
    [("PGRID", MValue.fv 1)] (1/2) (1/2) 0 0 (fun _ => 0)
    rfl rfl rfl rfl rfl (by norm_num)

/-- C2 (code bug): with data degradation enabled and `freeze` true,
`on_meas` stores the newly received frame into `_last_meas`
(comms_disruptions.py line 132) before the freeze branch reads the
"frozen" frame back (line 140), so it delivers the new frame, not the
frame held when freezing was enabled: here the stored last frame is
`PGRID = 1` but the delivery after a new frame `PGRID = 2` arrives is
`PGRID = 2`. -/
theorem on_meas_freeze_replays_new_frame :
    on_meas ⟨true, 0, true, 0, 0, false, 0, none⟩
        (some [("PGRID", MValue.fv 1)]) [("PGRID", MValue.fv 2)]
        0 (fun _ => 0) 0
      = (some [("PGRID", MValue.fv 2)],
          Delivery.now [("PGRID", MValue.fv 2)]) := by
  rfl

/-- C3: `_handle_disconnect` forces the dirty flag true, so the next
transmit tick on which the channel may send transmits the payload packed
from the command state held at that tick (gtnet_channel.py lines
315-340 and 359-366). -/
theorem handle_disconnect_forces_retransmit (c : Chan) (ka : Bool)
    (h : ok_to_send (handle_disconnect c) = true) :
    (handle_disconnect c).dirty = true ∧
      (txTick (handle_disconnect c) ka).2
        = some (build_cmd_payload (handle_disconnect c)) := by
  refine ⟨rfl, ?_⟩
  have hd : (handle_disconnect c).dirty = true := rfl
  simp [txTick, hd, h]

/-- Witness for C3 on a concrete ungated channel with one float field. -/
theorem handle_disconnect_forces_retransmit_witness :
    (handle_disconnect ⟨⟨"CH2", ["REM_PLOAD"], [Kind.float], none, true⟩,
        [("REM_PLOAD", 10)], false, [], true⟩).dirty = true ∧
      (txTick (handle_disconnect ⟨⟨"CH2", ["REM_PLOAD"], [Kind.float],
          none, true⟩, [("REM_PLOAD", 10)], false, [], true⟩) false).2
        = some (build_cmd_payload (handle_disconnect ⟨⟨"CH2",
            ["REM_PLOAD"], [Kind.float], none, true⟩,
            [("REM_PLOAD", 10)], false, [], true⟩)) :=
  handle_disconnect_forces_retransmit
    ⟨⟨"CH2", ["REM_PLOAD"], [Kind.float], none, true⟩,
      [("REM_PLOAD", 10)], false, [], true⟩ false rfl

/-- C10: on a channel whose spec declares a (non-empty) ready-to-send
gating field with `require_ready_to_send` true, `_ok_to_send` is true
exactly when the gating field is present in the latest snapshot and
coerces to the integer 1; when the field is absent or its value is not
coercible to an integer the gate is false and a transmit tick sends
nothing.  The function is total (the source wraps `int(rts)` in
`try/except`), so it never raises (gtnet_channel.py lines 315-352). -/
theorem ok_to_send_gating (c : Chan) (g : String) (ka : Bool)
    (hg : c.spec.ready_to_send_name = some g) (hne : g ≠ "")
    (hreq : c.spec.require_ready_to_send = true) :
    (ok_to_send c = true ↔
        ∃ v, lookupM c.latest_meas g = some v ∧ v.toInt? = some 1) ∧
      ((lookupM c.latest_meas g = none ∨
          ∃ v, lookupM c.latest_meas g = some v ∧ v.toInt? = none) →
        (txTick c ka).2 = none) := by
  have hgate : ok_to_send c
      = match lookupM c.latest_meas g with
        | none => false
        | some v =>
            match v.toInt? with
            | some n => decide (n = 1)
            | none => false := by
    simp only [ok_to_send, hg, hreq]
    rw [if_neg]
    simp [hne]
  constructor
  · rw [hgate]
    rcases hl : lookupM c.latest_meas g with _ | v
    · simp [hl]
    · rcases hi : v.toInt? with _ | n
      · simp [hl, hi]
      · simp only [hl, hi]
        constructor
        · intro hn
          exact ⟨v, rfl, by rw [hi, of_decide_eq_true hn]⟩
        · rintro ⟨v', hv', h1⟩
          injection hv' with hvv
          subst hvv
          rw [hi] at h1
          injection h1 with hn1
          simp [hn1]
  · intro habs
    have hfalse : ok_to_send c = false := by
      rw [hgate]
      rcases habs with hnone | ⟨v, hv, hi⟩
      · rw [hnone]
      · simp [hv, hi]
    simp [txTick, hfalse]

/-- Witness for C10 on a concrete gated channel whose snapshot lacks the
gating field: the gate is false and the tick sends nothing. -/
theorem ok_to_send_gating_witness :
    (ok_to_send ⟨⟨"CH4", ["REM_PLOAD"], [Kind.float],
          some "ReadyToSend_4_", true⟩, [("REM_PLOAD", 0)], true,
          [("P680", MValue.fv 3)], true⟩ = true ↔
        ∃ v, lookupM [("P680", MValue.fv 3)] "ReadyToSend_4_" = some v ∧
          v.toInt? = some 1) ∧
      (txTick ⟨⟨"CH4", ["REM_PLOAD"], [Kind.float],
          some "ReadyToSend_4_", true⟩, [("REM_PLOAD", 0)], true,
          [("P680", MValue.fv 3)], true⟩ true).2 = none :=
  ⟨(ok_to_send_gating _ "ReadyToSend_4_" true rfl (by decide) rfl).1,
    (ok_to_send_gating _ "ReadyToSend_4_" true rfl (by decide) rfl).2
      (Or.inl rfl)⟩

/-- C1 (amended): `set_cmd` with an unknown field name raises `KeyError`
and never raises the dirty flag, and the set of command fields is
unchanged; however the values of valid fields listed before the unknown
name keep their updates — the call is not rolled back
(gtnet_channel.py lines 198-218). -/
theorem set_cmd_unknown_raises (c : Chan) (updates : List (String × ℚ))
    (h : ∃ p ∈ updates, lookupA c.cmd_state p.1 = none) :
    (set_cmd c updates).2 = false ∧
      (set_cmd c updates).1.dirty = c.dirty ∧
      (set_cmd c updates).1.cmd_state.map Prod.fst
        = c.cmd_state.map Prod.fst := by
  obtain ⟨p, hp, hlk⟩ := h
  have hok : (setCmdLoop c.spec c.cmd_state updates false).2.2 = false :=
    setCmdLoop_unknown c.spec c.cmd_state updates false p.1
      (List.mem_map_of_mem Prod.fst hp) ((lookupA_eq_none_iff _ _).1 hlk)
  refine ⟨?_, ?_, ?_⟩ <;>
    simp [set_cmd, hok, setCmdLoop_keys]

/-- Witness for C1 on channel spec `["A"]`: updating only the unknown
name `"B"` raises, leaves the dirty flag down and the field set intact. -/
theorem set_cmd_unknown_raises_witness :
    (set_cmd ⟨⟨"CH1", ["A"], [Kind.int], none, true⟩, [("A", 0)],
        false, [], true⟩ [("B", 1)]).2 = false ∧
      (set_cmd ⟨⟨"CH1", ["A"], [Kind.int], none, true⟩, [("A", 0)],
          false, [], true⟩ [("B", 1)]).1.dirty = false ∧
      (set_cmd ⟨⟨"CH1", ["A"], [Kind.int], none, true⟩, [("A", 0)],
          false, [], true⟩ [("B", 1)]).1.cmd_state.map Prod.fst
        = ["A"] :=
  set_cmd_unknown_raises
    ⟨⟨"CH1", ["A"], [Kind.int], none, true⟩, [("A", 0)], false, [], true⟩
    [("B", 1)] ⟨("B", 1), List.mem_singleton.2 rfl, rfl⟩

/-- C1 counterexample: on a channel with the single int field `"A"`
holding `0`, `set_cmd {"A": 5, "B": 1}` raises on the unknown name
`"B"`, yet field `"A"` has already been overwritten with `5` — the
command state is NOT left exactly as it was before the call. -/
theorem set_cmd_unknown_partial_write_cex :
    (set_cmd ⟨⟨"CH1", ["A"], [Kind.int], none, true⟩, [("A", 0)],
        false, [], true⟩ [("A", 5), ("B", 1)]).2 = false ∧
      (set_cmd ⟨⟨"CH1", ["A"], [Kind.int], none, true⟩, [("A", 0)],
          false, [], true⟩ [("A", 5), ("B", 1)]).1.cmd_state
        = [("A", 5)] ∧
      ([("A", (5:ℚ))] ≠ [("A", (0:ℚ))]) := by
  refine ⟨rfl, rfl, by decide⟩

/-- C4: on a completed `set_cmd` call with distinct field names, the
dirty flag is raised only if some stored value actually changed (equal
final and initial states force an unchanged dirty flag), and repeating
the identical call changes nothing: it returns the channel unchanged
without touching the dirty flag (gtnet_channel.py lines 198-218). -/
theorem set_cmd_dirty_only_on_change (c : Chan)
    (updates : List (String × ℚ))
    (hnd : (updates.map Prod.fst).Nodup)
    (hok : (set_cmd c updates).2 = true) :
    ((set_cmd c updates).1.cmd_state = c.cmd_state →
        (set_cmd c updates).1.dirty = c.dirty) ∧
      set_cmd (set_cmd c updates).1 updates = ((set_cmd c updates).1, true) := by
  have hok' : (setCmdLoop c.spec c.cmd_state updates false).2.2 = true := by
    by_contra hne
    simp only [set_cmd] at hok
    rw [if_neg hne] at hok
    cases hok
  have hcmd : (set_cmd c updates).1.cmd_state
      = (setCmdLoop c.spec c.cmd_state updates false).1 := by
    simp [set_cmd, hok']
  have hdirty : (set_cmd c updates).1.dirty
      = (c.dirty || (setCmdLoop c.spec c.cmd_state updates false).2.1) := by
    simp [set_cmd, hok']
  constructor
  · intro hsame
    rw [hcmd] at hsame
    rw [hdirty]
    have hchf : (setCmdLoop c.spec c.cmd_state updates false).2.1 = false := by
      by_contra hcht
      exact setCmdLoop_changed_state_ne c.spec c.cmd_state updates hnd
        (Bool.of_not_eq_false hcht) hsame
    rw [hchf, Bool.or_false]
  · have hvals := setCmdLoop_final_values c.spec c.cmd_state updates false
      hnd hok'
    set c' := (set_cmd c updates).1 with hc'
    have hspec : c'.spec = c.spec := by
      rw [hc']
      simp [set_cmd, hok']
    have hloop2 : setCmdLoop c'.spec c'.cmd_state updates false
        = (c'.cmd_state, false, true) := by
      rw [hspec]
      apply setCmdLoop_noop
      intro p hp
      rw [hcmd]
      exact hvals p hp
    show set_cmd c' updates = (c', true)
    simp only [set_cmd, hloop2]
    simp

/-- Witness for C4 on a two-field channel: after `set_cmd` applies
`REM_BLOCKGEN = 0, REM_PREF = 2`, repeating the identical call leaves
the channel (dirty flag included) untouched. -/
theorem set_cmd_dirty_only_on_change_witness :
    ((set_cmd ⟨⟨"CH3", ["REM_BLOCKGEN", "REM_PREF"],
          [Kind.int, Kind.float], none, true⟩,
          [("REM_BLOCKGEN", 1), ("REM_PREF", 0)], false, [], true⟩
        [("REM_BLOCKGEN", 0), ("REM_PREF", 2)]).1.cmd_state
        = [("REM_BLOCKGEN", 1), ("REM_PREF", 0)] →
      (set_cmd ⟨⟨"CH3", ["REM_BLOCKGEN", "REM_PREF"],
          [Kind.int, Kind.float], none, true⟩,
          [("REM_BLOCKGEN", 1), ("REM_PREF", 0)], false, [], true⟩
        [("REM_BLOCKGEN", 0), ("REM_PREF", 2)]).1.dirty = false) ∧
      set_cmd (set_cmd ⟨⟨"CH3", ["REM_BLOCKGEN", "REM_PREF"],
          [Kind.int, Kind.float], none, true⟩,
          [("REM_BLOCKGEN", 1), ("REM_PREF", 0)], false, [], true⟩
        [("REM_BLOCKGEN", 0), ("REM_PREF", 2)]).1
        [("REM_BLOCKGEN", 0), ("REM_PREF", 2)]
        = ((set_cmd ⟨⟨"CH3", ["REM_BLOCKGEN", "REM_PREF"],
            [Kind.int, Kind.float], none, true⟩,
            [("REM_BLOCKGEN", 1), ("REM_PREF", 0)], false, [], true⟩
          [("REM_BLOCKGEN", 0), ("REM_PREF", 2)]).1, true) :=
  set_cmd_dirty_only_on_change
    ⟨⟨"CH3", ["REM_BLOCKGEN", "REM_PREF"], [Kind.int, Kind.float],
        none, true⟩, [("REM_BLOCKGEN", 1), ("REM_PREF", 0)],
        false, [], true⟩
    [("REM_BLOCKGEN", 0), ("REM_PREF", 2)] (by decide) (by decide)

/-- C8 counterexample: a 10-sample window in which one sample carries
`OVERLOADED = -1` (nonzero, hence "asserted" in the claim's sense)
still passes `_stable_window_ok`, because the source tests
`max(ov) != 0` and the maximum of `[0, ..., 0, -1]` is `0`. -/
theorem stable_window_negative_flag_cex :
    stable_window_ok (List.replicate 9 [("OVERLOADED", SVal.si 0)]
        ++ [[("OVERLOADED", SVal.si (-1))]]) [] = true ∧
      [("OVERLOADED", SVal.si (-1))]
        ∈ List.replicate 9 [("OVERLOADED", SVal.si 0)]
          ++ [[("OVERLOADED", SVal.si (-1))]] ∧
      sget [("OVERLOADED", SVal.si (-1))] "OVERLOADED"
        = some (SVal.si (-1)) ∧
      (SVal.si (-1)).toQ ≠ 0 := by
  refine ⟨rfl, by simp, rfl, by norm_num [SVal.toQ]⟩

/-- C8 (amended): `_stable_window_ok` returns false for every window
containing a sample with a positive protection/detection flag value
(`OVERLOADED > 0` or `W_DETECTED > 0`; the source compares the maximum
of the present flag values with `0`, so a negative nonzero flag does not
trip it), and returns true for every window of `N ≥ 10` identical
samples whose flags, where present, are `0`, in which every required
signal is present and every configured span/step bound is non-negative
(run_islanding_dg_load_test.py lines 146-184). -/
theorem stable_window_flags_and_constant
    (samples : List Sample) (limits : Limits) (s flag_s : Sample)
    (v : SVal) (fname : String) (N : ℕ) :
    ((fname = "OVERLOADED" ∨ fname = "W_DETECTED") → flag_s ∈ samples →
        sget flag_s fname = some v → 0 < v.toQ →
        stable_window_ok samples limits = false) ∧
      (10 ≤ N →
        (∀ w, sget s "OVERLOADED" = some w → w.toQ = 0) →
        (∀ w, sget s "W_DETECTED" = some w → w.toQ = 0) →
        (∀ p ∈ limits, p.2.required = true → sget s p.1 ≠ none) →
        (∀ p ∈ limits, ∀ b, p.2.span = some b → 0 ≤ b) →
        (∀ p ∈ limits, ∀ b, p.2.step = some b → 0 ≤ b) →
        stable_window_ok (List.replicate N s) limits = true) := by
  constructor
  · intro hfn hmem hv hpos
    have hmm : v.toQ ∈ (presentVals samples fname).map SVal.toQ :=
      List.mem_map_of_mem _ (List.mem_filterMap.2 ⟨flag_s, hmem, hv⟩)
    have hne : ((presentVals samples fname).map SVal.toQ).isEmpty = false := by
      rcases hl : (presentVals samples fname).map SVal.toQ with _ | ⟨a, tl⟩
      · rw [hl] at hmm; cases hmm
      · rfl
    have hq : 0 < qmax ((presentVals samples fname).map SVal.toQ) :=
      lt_of_lt_of_le hpos (le_qmax _ _ hmm)
    have hbad : flagBad samples fname = true := by
      unfold flagBad
      rw [if_neg (by simp [hne])]
      exact decide_eq_true hq.ne'
    unfold stable_window_ok
    split_ifs with h1 h2 h3 h4
    · rfl
    · rfl
    · rfl
    · rfl
    · exfalso
      rcases hfn with rfl | rfl
      · exact h3 hbad
      · exact h4 hbad
  · intro hN hO hW hreq hspan hstep
    have l1 : ¬ (List.replicate N s).length < 10 := by
      rw [List.length_replicate]; omega
    have l2 := requiredOk_replicate N s limits hN hreq
    have l3 := flagBad_replicate_zero N s "OVERLOADED" hO
    have l4 := flagBad_replicate_zero N s "W_DETECTED" hW
    unfold stable_window_ok
    rw [if_neg l1, if_neg (by simp [l2]), if_neg (by simp [l3]),
      if_neg (by simp [l4])]
    exact signalsOk_replicate N s limits hspan hstep

/-- Witness for C8: a window of ten samples with `OVERLOADED = 1` is
rejected, and a window of ten identical samples holding only the
required signal `SMACH` is accepted. -/
theorem stable_window_flags_and_constant_witness :
    stable_window_ok (List.replicate 10
        [("OVERLOADED", SVal.si 1), ("SMACH", SVal.si 1)])
        [("SMACH", LimitCfg.mk true none none)] = false ∧
      stable_window_ok (List.replicate 10 [("SMACH", SVal.si 1)])
        [("SMACH", LimitCfg.mk true none none)] = true :=
  ⟨(stable_window_flags_and_constant
      (List.replicate 10 [("OVERLOADED", SVal.si 1), ("SMACH", SVal.si 1)])
      [("SMACH", LimitCfg.mk true none none)] [("SMACH", SVal.si 1)]
      [("OVERLOADED", SVal.si 1), ("SMACH", SVal.si 1)]
      (SVal.si 1) "OVERLOADED" 10).1 (Or.inl rfl)
      (by simp [List.mem_replicate]) rfl (by norm_num [SVal.toQ]),
    (stable_window_flags_and_constant
      (List.replicate 10 [("OVERLOADED", SVal.si 1), ("SMACH", SVal.si 1)])
      [("SMACH", LimitCfg.mk true none none)] [("SMACH", SVal.si 1)]
      [("OVERLOADED", SVal.si 1), ("SMACH", SVal.si 1)]
      (SVal.si 1) "OVERLOADED" 10).2 (by norm_num)
      (fun w hw => by simp [sget] at hw)
      (fun w hw => by simp [sget] at hw)
      (fun p hp hr => by
        rcases List.mem_singleton.1 hp with rfl
        simp [sget])
      (fun p hp b hb => by
        rcases List.mem_singleton.1 hp with rfl
        cases hb)
      (fun p hp b hb => by
        rcases List.mem_singleton.1 hp with rfl
        cases hb)⟩


/-- C6 counterexample: with the default configuration and a fresh
controller, filtered loading exactly at the hard limit
(`SMACH = 3/2 = SMACH_limit`, fresh filter so the filtered value is
`3/2`), but with a depressed speed measurement `WPU = 1/2`, the
frequency-support term (`k_pref_wpu * (1 - 1/2) = 1`) outweighs the
loading pull-down (`-1/2`), and the emitted `REM_PREF` of the first
update step is `1/100`, strictly ABOVE the base setpoint `0`. -/
theorem update_over_limit_above_base_cex :
    ((initState defaultConfig).f_smach.step (3/2) (1/20)).1 = 3/2 ∧
      defaultConfig.SMACH_limit ≤ 3/2 ∧
      (update defaultConfig (initState defaultConfig)
          ⟨some (3/2), none, some 0, some (1/2)⟩ (1/20) 1).1.REM_PREF
        = 1/100 ∧
      defaultConfig.Pref_base < 1/100 := by
  refine ⟨?_, ?_, ?_, ?_⟩
  · norm_num [initState, defaultConfig, LowPass.step]
  · norm_num [defaultConfig]
  · norm_num [update, initState, defaultConfig, is_stale, get_filtered,
      LowPass.step, RateLimiter.step, pref_from_smach, pref_from_wpu,
      wref_from_wpu, apply_voltage_guard, handle_overload_logic, clampQ,
      abs_of_nonneg]
  · norm_num [defaultConfig]

/-- C6 (amended): when the filtered loading is at or above `SMACH_limit`
and the speed/frequency measurement is absent (`WPU = None`, so the
frequency-support term — which can push the setpoint above base, see the
counterexample — does not apply), one `update` step emits a `REM_PREF`
strictly below `Pref_base`, provided the Pref rate-limiter state starts
at or below base with a positive down-rate, `Pref_min < Pref_base`,
`dt > 0`, and the staleness window is non-negative
(DG_controller.py lines 223-301 and 327-347). -/
theorem update_over_limit_below_base
    (cfg : DGControllerConfig) (st : DGState) (meas : DGMeasurements)
    (dt now s y0 : ℚ)
    (hen : st.enabled = true)
    (hwpu : meas.WPU = none)
    (hsm : meas.SMACH = some s)
    (hfs : cfg.SMACH_limit ≤ (st.f_smach.step s dt).1)
    (hy : st.rl_pref.y = some y0) (hy0 : y0 ≤ cfg.Pref_base)
    (hmin : cfg.Pref_min < cfg.Pref_base)
    (hdt : 0 < dt) (hdn : 0 < st.rl_pref.down)
    (hstale : 0 ≤ cfg.max_stale_s) :
    (update cfg st meas dt now).1.REM_PREF < cfg.Pref_base := by
  have hnstale : is_stale cfg (some now) now = false := by
    unfold is_stale
    exact decide_eq_false (by intro hgt; simp at hgt; linarith)
  have hterm : pref_from_smach cfg ((st.f_smach.step s dt).1) ≤ -(1/2) :=
    pref_from_smach_le cfg _ hfs
  have hP1 : cfg.Pref_base + pref_from_smach cfg ((st.f_smach.step s dt).1)
      < cfg.Pref_base := by linarith
  rcases hv : meas.GENRMSPU with _ | v
  · simp only [update, hen, hsm, hwpu, hv, get_filtered, Option.isSome_some,
      Bool.true_or, if_true, hnstale, Bool.false_eq_true, if_false]
    have hP3 := overload_pref_le cfg meas.OVERLOADED
      (cfg.Pref_base + pref_from_smach cfg ((st.f_smach.step s dt).1)) now
      st.overload_start_ts st.reset_until_ts
    have hclamp := clampQ_lt (handle_overload_logic cfg meas.OVERLOADED
      (cfg.Pref_base + pref_from_smach cfg ((st.f_smach.step s dt).1)) now
      st.overload_start_ts st.reset_until_ts).2.2.1 cfg.Pref_min
      cfg.Pref_max cfg.Pref_base (by linarith) hmin
    exact rl_step_lt st.rl_pref _ dt y0 cfg.Pref_base hy hy0 hclamp hdt hdn
  · simp only [update, hen, hsm, hwpu, hv, get_filtered, Option.isSome_some,
      Bool.true_or, if_true, hnstale, Bool.false_eq_true, if_false]
    have hP2 : apply_voltage_guard cfg
        (cfg.Pref_base + pref_from_smach cfg ((st.f_smach.step s dt).1))
        ((st.f_vpu.step v dt).1) < cfg.Pref_base :=
      lt_of_le_of_lt (vguard_le cfg _ _) hP1
    have hP3 := overload_pref_le cfg meas.OVERLOADED
      (apply_voltage_guard cfg
        (cfg.Pref_base + pref_from_smach cfg ((st.f_smach.step s dt).1))
        ((st.f_vpu.step v dt).1)) now
      st.overload_start_ts st.reset_until_ts
    have hclamp := clampQ_lt (handle_overload_logic cfg meas.OVERLOADED
      (apply_voltage_guard cfg
        (cfg.Pref_base + pref_from_smach cfg ((st.f_smach.step s dt).1))
        ((st.f_vpu.step v dt).1)) now
      st.overload_start_ts st.reset_until_ts).2.2.1 cfg.Pref_min
      cfg.Pref_max cfg.Pref_base (by linarith) hmin
    exact rl_step_lt st.rl_pref _ dt y0 cfg.Pref_base hy hy0 hclamp hdt hdn

/-- Witness for C6 (amended) at the default configuration with
`SMACH = 2` and no speed measurement: the first step emits a setpoint
strictly below base. -/
theorem update_over_limit_below_base_witness :
    (update defaultConfig (initState defaultConfig)
        ⟨some 2, none, some 0, none⟩ 1 1).1.REM_PREF
      < defaultConfig.Pref_base :=
  update_over_limit_below_base defaultConfig (initState defaultConfig)
    ⟨some 2, none, some 0, none⟩ 1 1 2 0 rfl rfl rfl
    (by norm_num [initState, defaultConfig, LowPass.step]) rfl
    (by norm_num [defaultConfig]) (by norm_num [defaultConfig])
    (by norm_num) (by norm_num [initState, defaultConfig])
    (by norm_num [defaultConfig])

end RTDS
